import Mathlib

/-!
Shallow embedding of the VaultVote repository core: the two Solidity
contracts (`VaultVoteEnhanced` and `VaultVote`), the express server's
nonce-gated toggle-hidden endpoint together with its `FileStorage`
metadata store, and the client-side `createElectionSchema` validation.
Solidity mappings become total functions with the EVM default values,
reverts become `Except.error` (a reverted call leaves the caller's state
untouched), and the FHE coprocessor is an opaque oracle record whose
fields mirror the `FHE.*` library entry points used by the contracts.
-/

/-- Pointwise update of a total function, mirroring a Solidity mapping write. -/
def setF {α β : Type} [DecidableEq α] (f : α → β) (a : α) (b : β) : α → β :=
  fun x => if x = a then b else f x

@[simp] theorem setF_same {α β : Type} [DecidableEq α] (f : α → β) (a : α) (b : β) :
    setF f a b a = b := by
  simp [setF]

theorem setF_ne {α β : Type} [DecidableEq α] (f : α → β) (a : α) (b : β) (x : α)
    (h : x ≠ a) : setF f a b x = f x := by
  simp [setF, h]

/-- `enum ElectionState { Created, Open, Closed, Revealed }` shared by both contracts. -/
inductive ElectionState where
  | Created
  | Open
  | Closed
  | Revealed
deriving DecidableEq

/-- Opaque FHE coprocessor capability: the `FHE.*` calls the contracts delegate to.
Ciphertext handles, byte blobs and proofs are all modelled as `Nat`. -/
structure FHEOracle where
  fromExternal : Nat → Nat → Nat
  addCt : Nat → Nat → Nat
  makePubliclyDecryptable : Nat → Nat
  toBytes32 : Nat → Nat
  checkSignatures : List Nat → Nat → Nat → Bool
  decodeU32 : Nat → Nat
  encodePacked32 : Nat → String

/-- Per-election storage of `VaultVoteEnhanced` (struct `Election`).
Solidity mappings are total functions defaulting to zero values. -/
structure ElectionE where
  title : String
  choiceLabels : List String
  choiceCount : Nat
  state : ElectionState
  encryptedVotesPerChoice : Nat → Nat
  revealedVotesPerChoice : Nat → Nat
  choiceRevealed : Nat → Bool
  userVotes : Nat → Nat
  hasVoted : Nat → Bool
  fullyRevealed : Bool
  revealedChoiceCount : Nat
  expectedHandles : Nat → Nat

/-- EVM default value of an `Election` storage slot (what `elections[id]` reads
before `createElection` ever assigned `id`). -/
def emptyElectionE : ElectionE :=
  { title := ""
    choiceLabels := []
    choiceCount := 0
    state := .Created
    encryptedVotesPerChoice := fun _ => 0
    revealedVotesPerChoice := fun _ => 0
    choiceRevealed := fun _ => false
    userVotes := fun _ => 0
    hasVoted := fun _ => false
    fullyRevealed := false
    revealedChoiceCount := 0
    expectedHandles := fun _ => 0 }

/-- Contract-level storage of `VaultVoteEnhanced`. -/
structure ContractE where
  owner : Nat
  elections : Nat → ElectionE
  electionCount : Nat

/-- `VaultVoteEnhanced.createElection`.  Note that it writes into the storage
slot `elections[electionCount]` without clearing the fields it does not
assign (`hasVoted`, `userVotes`, `revealedVotesPerChoice`, `expectedHandles`,
and `choiceRevealed` beyond the new label count). -/
def createElection (o : FHEOracle) (sender : Nat) (title : String)
    (choiceLabels : List String) (zeroInputs zeroProofs : List Nat)
    (c : ContractE) : Except String ContractE :=
  if sender ≠ c.owner then .error "only owner"
  else if ¬ choiceLabels.length > 1 then .error "need at least 2 choices"
  else if zeroInputs.length ≠ choiceLabels.length then .error "mismatch inputs"
  else if zeroProofs.length ≠ choiceLabels.length then .error "mismatch proofs"
  else
    let id := c.electionCount
    let old := c.elections id
    let n := choiceLabels.length
    let e : ElectionE :=
      { old with
        title := title
        choiceLabels := choiceLabels
        choiceCount := n
        state := .Created
        fullyRevealed := false
        revealedChoiceCount := 0
        encryptedVotesPerChoice := fun i =>
          if i < n then o.fromExternal (zeroInputs.getD i 0) (zeroProofs.getD i 0)
          else old.encryptedVotesPerChoice i
        choiceRevealed := fun i => if i < n then false else old.choiceRevealed i }
    .ok { c with elections := setF c.elections id e, electionCount := c.electionCount + 1 }

/-- `VaultVoteEnhanced.openElection` (no `id < electionCount` check!). -/
def openElection (sender id : Nat) (c : ContractE) : Except String ContractE :=
  if sender ≠ c.owner then .error "only owner"
  else
    let e := c.elections id
    if e.state ≠ .Created then .error "invalid state"
    else .ok { c with elections := setF c.elections id { e with state := .Open } }

/-- `VaultVoteEnhanced.closeElection`. -/
def closeElection (sender id : Nat) (c : ContractE) : Except String ContractE :=
  if sender ≠ c.owner then .error "only owner"
  else
    let e := c.elections id
    if e.state ≠ .Open then .error "not open"
    else .ok { c with elections := setF c.elections id { e with state := .Closed } }

/-- `VaultVoteEnhanced.castVote`. -/
def castVote (o : FHEOracle) (sender id choiceIndex voteInput voteProof : Nat)
    (c : ContractE) : Except String ContractE :=
  let e := c.elections id
  if e.state ≠ .Open then .error "election not open"
  else if e.hasVoted sender then .error "already voted"
  else if ¬ choiceIndex < e.choiceCount then .error "invalid choice"
  else
    let vote := o.fromExternal voteInput voteProof
    let e' :=
      { e with
        userVotes := setF e.userVotes sender vote
        encryptedVotesPerChoice :=
          setF e.encryptedVotesPerChoice choiceIndex
            (o.addCt (e.encryptedVotesPerChoice choiceIndex) vote)
        hasVoted := setF e.hasVoted sender true }
    .ok { c with elections := setF c.elections id e' }

/-- `VaultVoteEnhanced.requestChoiceReveal`.  The only replay guard is
`!choiceRevealed[choiceIndex]`; there is no per-choice "already requested" flag. -/
def requestChoiceReveal (o : FHEOracle) (sender id choiceIndex : Nat)
    (c : ContractE) : Except String ContractE :=
  if sender ≠ c.owner then .error "only owner"
  else
    let e := c.elections id
    if e.state ≠ .Closed then .error "must be closed"
    else if ¬ choiceIndex < e.choiceCount then .error "invalid choice"
    else if e.choiceRevealed choiceIndex then .error "already revealed"
    else
      let newCt := o.makePubliclyDecryptable (e.encryptedVotesPerChoice choiceIndex)
      let handle := o.toBytes32 newCt
      let e' :=
        { e with
          encryptedVotesPerChoice := setF e.encryptedVotesPerChoice choiceIndex newCt
          expectedHandles := setF e.expectedHandles choiceIndex handle }
      .ok { c with elections := setF c.elections id e' }

/-- `VaultVoteEnhanced.resolveChoiceCallback`.  Checks, in order:
`id < electionCount`, `state == Closed`, `choiceIndex < choiceCount`,
`!choiceRevealed`, then oracle signature verification against
`[expectedHandles[choiceIndex]]`; on success stores the decoded count,
marks the choice revealed, and flips the election to `Revealed` when the
incremented revealed count reaches `choiceCount`. -/
def resolveChoiceCallback (o : FHEOracle) (id choiceIndex cleartexts proof : Nat)
    (c : ContractE) : Except String ContractE :=
  if ¬ id < c.electionCount then .error "invalid election"
  else
    let e := c.elections id
    if e.state ≠ .Closed then .error "must be closed"
    else if ¬ choiceIndex < e.choiceCount then .error "invalid choice"
    else if e.choiceRevealed choiceIndex then .error "already revealed"
    else if ¬ o.checkSignatures [e.expectedHandles choiceIndex] cleartexts proof then
      .error "invalid decryption proof"
    else
      let voteCount := o.decodeU32 cleartexts
      let rcc := e.revealedChoiceCount + 1
      let base :=
        { e with
          revealedVotesPerChoice := setF e.revealedVotesPerChoice choiceIndex voteCount
          choiceRevealed := setF e.choiceRevealed choiceIndex true
          revealedChoiceCount := rcc }
      let e' := if rcc = e.choiceCount then { base with state := .Revealed, fullyRevealed := true }
                else base
      .ok { c with elections := setF c.elections id e' }

/-- The winner scan of `VaultVoteEnhanced.getWinner`: fold the Solidity loop
body over the remaining indices, replacing the accumulator only on a strictly
greater count. -/
def winnerAux (f : Nat → Nat) : List Nat → Nat × Nat → Nat × Nat
  | [], acc => acc
  | i :: rest, acc => winnerAux f rest (if f i > acc.2 then (i, f i) else acc)

/-- `VaultVoteEnhanced.getWinner`: requires `fullyRevealed`, starts from
`(0, revealedVotesPerChoice[0])` and scans indices `1 .. choiceCount-1`. -/
def getWinner (id : Nat) (c : ContractE) : Except String (Nat × Nat) :=
  let e := c.elections id
  if ¬ e.fullyRevealed then .error "not fully revealed"
  else .ok (winnerAux e.revealedVotesPerChoice
    (List.range' 1 (e.choiceCount - 1)) (0, e.revealedVotesPerChoice 0))

/-- The externally callable mutators of `VaultVoteEnhanced`, as one operation type. -/
inductive Op where
  | createE (sender : Nat) (title : String) (labels : List String) (zi zp : List Nat)
  | openE (sender id : Nat)
  | closeE (sender id : Nat)
  | voteE (sender id idx vi vp : Nat)
  | requestE (sender id idx : Nat)
  | resolveE (id idx ct pf : Nat)

/-- Transaction semantics of one `VaultVoteEnhanced` call: a revert leaves
the contract storage unchanged. -/
def stepE (o : FHEOracle) (c : ContractE) : Op → ContractE
  | .createE s t l zi zp =>
      match createElection o s t l zi zp c with
      | .ok c' => c'
      | .error _ => c
  | .openE s id =>
      match openElection s id c with
      | .ok c' => c'
      | .error _ => c
  | .closeE s id =>
      match closeElection s id c with
      | .ok c' => c'
      | .error _ => c
  | .voteE s id idx vi vp =>
      match castVote o s id idx vi vp c with
      | .ok c' => c'
      | .error _ => c
  | .requestE s id idx =>
      match requestChoiceReveal o s id idx c with
      | .ok c' => c'
      | .error _ => c
  | .resolveE id idx ct pf =>
      match resolveChoiceCallback o id idx ct pf c with
      | .ok c' => c'
      | .error _ => c

/-- Per-election storage of the single-tally contract `VaultVote` (struct `Election`). -/
structure ElectionV where
  title : String
  choices : Nat
  state : ElectionState
  encryptedTally : Nat
  revealedResult : String
  revealRequested : Bool
  expectedTallyHandle : Nat
  hasVoted : Nat → Bool

/-- Contract-level storage of `VaultVote`. -/
structure ContractV where
  owner : Nat
  elections : Nat → ElectionV
  electionCount : Nat

/-- `VaultVote.requestTallyReveal`: owner-only, requires `state == Closed` and
`!revealRequested`; snapshots the publicly-decryptable handle and sets the flag. -/
def requestTallyReveal (o : FHEOracle) (sender id : Nat) (c : ContractV) :
    Except String ContractV :=
  if sender ≠ c.owner then .error "only owner"
  else
    let e := c.elections id
    if e.state ≠ .Closed then .error "must be closed"
    else if e.revealRequested then .error "reveal already requested"
    else
      let newCt := o.makePubliclyDecryptable e.encryptedTally
      let handle := o.toBytes32 newCt
      let e' :=
        { e with
          encryptedTally := newCt
          expectedTallyHandle := handle
          revealRequested := true }
      .ok { c with elections := setF c.elections id e' }

/-- `VaultVote.resolveTallyCallback`: requires a registered election,
`revealRequested`, `state == Closed` (and not `Revealed`), verifies the proof
against `[expectedTallyHandle]`, then stores the result and flips to `Revealed`. -/
def resolveTallyCallback (o : FHEOracle) (id cleartexts proof : Nat) (c : ContractV) :
    Except String ContractV :=
  if ¬ id < c.electionCount then .error "invalid election"
  else
    let e := c.elections id
    if ¬ e.revealRequested then .error "reveal not requested"
    else if e.state ≠ .Closed then .error "must be closed"
    else if e.state = .Revealed then .error "already revealed"
    else if ¬ o.checkSignatures [e.expectedTallyHandle] cleartexts proof then
      .error "invalid decryption proof"
    else
      let tally := o.decodeU32 cleartexts
      let e' := { e with state := .Revealed, revealedResult := o.encodePacked32 tally }
      .ok { c with elections := setF c.elections id e' }

/-- Transaction semantics for a `VaultVote` call result: a revert keeps the old state. -/
def commitV (r : Except String ContractV) (c : ContractV) : ContractV :=
  match r with
  | .ok c' => c'
  | .error _ => c

/-- One stored nonce of the server's in-memory `nonceStore`
(`{ nonce, electionId, expiresAt }`). -/
structure NonceData where
  nonce : String
  electionId : Nat
  expiresAt : Nat
deriving DecidableEq

/-- `ElectionMetadata` record of `shared/schema.ts` (`electionMetadataSchema`). -/
structure ElectionMetadata where
  electionId : Nat
  description : Option String := none
  votingStartTime : Option String := none
  votingEndTime : Option String := none
  resultRevealTime : Option String := none
  imageUrl : Option String := none
  hidden : Option Bool := none
deriving DecidableEq

/-- Server state touched by the toggle-hidden gateway: the nonce `Map` and the
`FileStorage` metadata `Map` (`saveElectionMetadata` is a plain `Map.set`,
i.e. a whole-record replacement). -/
structure ServerState where
  nonceStore : String → Option NonceData
  metadata : Nat → Option ElectionMetadata

/-- HTTP outcome of the toggle-hidden handler: `res.json({success,hidden})`
or an error status with a message. -/
inductive ToggleResult where
  | ok (hidden : Bool)
  | err (status : Nat) (msg : String)
deriving DecidableEq

/-- Strip an expected literal prefix from a character list, or fail. -/
def stripLit : List Char → List Char → Option (List Char)
  | [], rest => some rest
  | _ :: _, [] => none
  | p :: ps, ch :: cs => if ch = p then stripLit ps cs else none

/-- Decimal value of a digit run, as computed by `parseInt(s, 10)` on a digit string. -/
def digitsVal (ds : List Char) : Nat :=
  ds.foldl (fun acc ch => acc * 10 + (ch.toNat - 48)) 0

/-- One character of the `[a-f0-9]` class of the handler's message pattern. -/
def isHexLower (ch : Char) : Bool :=
  ch.isDigit || (decide ('a' ≤ ch) && decide (ch ≤ 'f'))

/-- The message-format check of the toggle-hidden handler: the regular
expression `^Toggle hidden for election (\d+) with nonce ([a-f0-9]+)$`
followed by `parseInt` on the first group.  Implemented over the character
list of the message. -/
def parseToggleMessage (msg : String) : Option (Nat × String) :=
  match stripLit "Toggle hidden for election ".data msg.data with
  | none => none
  | some rest =>
    let digits := rest.takeWhile Char.isDigit
    let rest1 := rest.dropWhile Char.isDigit
    if digits.length = 0 then none
    else
      match stripLit " with nonce ".data rest1 with
      | none => none
      | some hexpart =>
        if 0 < hexpart.length ∧ hexpart.all isHexLower then
          some (digitsVal digits, String.mk hexpart)
        else none

/-- `POST /api/election-metadata/:id/toggle-hidden`, with `recover` standing
for ethers' `verifyMessage` (returning `none` when recovery throws) and `now`
for `Date.now()`.  The checks appear in exactly the source order; note the
nonce is deleted only after the election-id and expiry checks, and that the
recovered signer address is never compared against anything. -/
def toggleHidden (recover : String → String → Option String) (now electionId : Nat)
    (message signature nonce : String) (st : ServerState) :
    ToggleResult × ServerState :=
  if message = "" ∨ signature = "" ∨ nonce = "" then
    (.err 401 "Message, signature, and nonce required for authentication", st)
  else
    match st.nonceStore nonce with
    | none => (.err 401 "Invalid or expired nonce", st)
    | some nd =>
      if nd.electionId ≠ electionId then
        (.err 400 "Nonce does not match election ID", st)
      else if nd.expiresAt < now then
        (.err 401 "Nonce expired", { st with nonceStore := setF st.nonceStore nonce none })
      else
        let st1 : ServerState := { st with nonceStore := setF st.nonceStore nonce none }
        match recover message signature with
        | none => (.err 401 "Invalid signature", st1)
        | some _signer =>
          match parseToggleMessage message with
          | none => (.err 400 "Invalid message format", st1)
          | some (mid, mnonce) =>
            if mid ≠ electionId ∨ mnonce ≠ nonce then
              (.err 400 "Message data mismatch", st1)
            else
              let existing := st1.metadata electionId
              let newHidden : Bool :=
                !(match existing with
                  | some m => m.hidden.getD false
                  | none => false)
              let updated : ElectionMetadata := { electionId := electionId, hidden := some newHidden }
              (.ok newHidden,
               { st1 with metadata := setF st1.metadata electionId (some updated) })

/-- The client-side form validation `createElectionSchema` of
`shared/schema.ts` (the parts constraining the choice labels): title at
least 3 characters, between 2 and 10 labels, each label non-empty (zod
checks `min(1)` before trimming). -/
def createElectionSchemaValid (title : String) (choiceLabels : List String) : Bool :=
  decide (3 ≤ title.length) &&
  decide (2 ≤ choiceLabels.length) &&
  decide (choiceLabels.length ≤ 10) &&
  choiceLabels.all (fun l => decide (1 ≤ l.length))

/-- A concrete oracle used for executing scenarios: handles are numbers,
homomorphic add is addition, making a handle public bumps it by 1000, and
proof checking always accepts. -/
def testOracle : FHEOracle :=
  { fromExternal := fun a _ => a
    addCt := fun a b => a + b
    makePubliclyDecryptable := fun h => h + 1000
    toBytes32 := fun h => h
    checkSignatures := fun _ _ _ => true
    decodeU32 := fun n => n
    encodePacked32 := fun n => toString n }

/-- Freshly deployed `VaultVoteEnhanced` owned by address 0. -/
def c0 : ContractE :=
  { owner := 0, elections := fun _ => emptyElectionE, electionCount := 0 }

/-- A signature recovery oracle that always recovers address A. -/
def recA : String → String → Option String := fun _ _ => some "0xAAA"

/-- A signature recovery oracle that always recovers a different address B. -/
def recB : String → String → Option String := fun _ _ => some "0xBBB"

/-- Server state holding one unexpired nonce bound to election 5 and no metadata. -/
def st0 : ServerState :=
  { nonceStore := fun s =>
      if s = "ab12" then some { nonce := "ab12", electionId := 5, expiresAt := 100 } else none
    metadata := fun _ => none }

/-- The correctly formatted toggle message for election 5 and nonce ab12. -/
def msg5 : String := "Toggle hidden for election 5 with nonce ab12"

/-- First consumption attempt of scenario C: the nonce issued for election 5
is presented against election 6. -/
def call1 : ToggleResult × ServerState :=
  toggleHidden recA 0 6 "Toggle hidden for election 6 with nonce ab12" "sig" "ab12" st0

/-- Second attempt, now with the originally correct election id 5, on the
state left behind by the failed first attempt. -/
def call2 : ToggleResult × ServerState :=
  toggleHidden recA 0 5 msg5 "sig" "ab12" call1.2

/-- Counterexample to C1: the attempt with the wrong election id fails, but
the nonce is NOT deleted (the handler deletes only after the election-id and
expiry checks), so the retry with the originally correct election id
succeeds instead of failing. -/
theorem nonce_mismatch_replay_cex :
    call1.1 = .err 400 "Nonce does not match election ID" ∧
    call1.2.nonceStore "ab12" = some { nonce := "ab12", electionId := 5, expiresAt := 100 } ∧
    call2.1 = .ok true := by
  decide

/-- Claim C1, amended: the nonce is consumed only once the election-id check
has passed.  A lookup hit whose stored election id differs from the request
leaves the whole server state (the nonce included) unchanged, while any
attempt that passes the election-id check deletes the nonce regardless of
the remaining verification outcome (expiry, signature, message format). -/
theorem nonce_consumption_boundary
    (recover : String → String → Option String) (now eid : Nat)
    (msg sig nonce : String) (nd : NonceData) (st : ServerState)
    (hlook : st.nonceStore nonce = some nd)
    (hm : msg ≠ "") (hs : sig ≠ "") (hn : nonce ≠ "") :
    (nd.electionId ≠ eid →
      toggleHidden recover now eid msg sig nonce st =
        (.err 400 "Nonce does not match election ID", st)) ∧
    (nd.electionId = eid →
      ((toggleHidden recover now eid msg sig nonce st).2).nonceStore nonce = none) := by
  have hcond : ¬(msg = "" ∨ sig = "" ∨ nonce = "") := by simp [hm, hs, hn]
  unfold toggleHidden
  rw [if_neg hcond]
  simp only [hlook]
  constructor
  · intro hne
    rw [if_pos hne]
  · intro heq
    have hne2 : ¬(nd.electionId ≠ eid) := by simp [heq]
    rw [if_neg hne2]
    split
    · simp [setF]
    · split
      · simp [setF]
      · split
        · simp [setF]
        · split <;> simp [setF]

/-- Witness for the amended C1 at a concrete state: the mismatched attempt
returns the 400 error and leaves the store untouched. -/
theorem nonce_consumption_boundary_witness :
    toggleHidden recA 0 6 "m" "s" "ab12" st0 =
      (.err 400 "Nonce does not match election ID", st0) :=
  (nonce_consumption_boundary recA 0 6 "m" "s" "ab12"
    { nonce := "ab12", electionId := 5, expiresAt := 100 } st0
    (by decide) (by decide) (by decide) (by decide)).1 (by decide)

/-- Claim C9: the toggle-hidden endpoint applies no ownership policy to the
recovered signer.  Given a stored unexpired nonce for the requested election
and a message in exactly the required format, the handler succeeds whenever
signature recovery succeeds, and its entire outcome (response and new state)
is identical for two recovery oracles that recover different signer
addresses — the recovered address is never compared against anything. -/
theorem toggle_hidden_no_ownership
    (r1 r2 : String → String → Option String) (now eid : Nat)
    (msg sig nonce : String) (nd : NonceData) (a1 a2 : String) (st : ServerState)
    (hlook : st.nonceStore nonce = some nd)
    (hid : nd.electionId = eid)
    (hexp : ¬ nd.expiresAt < now)
    (hm : msg ≠ "") (hs : sig ≠ "") (hn : nonce ≠ "")
    (hr1 : r1 msg sig = some a1) (hr2 : r2 msg sig = some a2)
    (hparse : parseToggleMessage msg = some (eid, nonce)) :
    (∃ h st', toggleHidden r1 now eid msg sig nonce st = (.ok h, st')) ∧
    toggleHidden r1 now eid msg sig nonce st = toggleHidden r2 now eid msg sig nonce st := by
  have hcond : ¬(msg = "" ∨ sig = "" ∨ nonce = "") := by simp [hm, hs, hn]
  have hne2 : ¬(nd.electionId ≠ eid) := by simp [hid]
  unfold toggleHidden
  simp only [hlook, if_neg hcond, if_neg hne2, if_neg hexp, hr1, hr2, hparse]
  simp only [ne_eq, not_true_eq_false, false_or, or_false, if_neg, ite_false, not_false_eq_true,
    if_false]
  constructor
  · exact ⟨_, _, rfl⟩
  · trivial

/-- Witness for C9: with the nonce store of `st0` and the exactly formatted
message for election 5, two recovery oracles returning different addresses
both succeed and produce identical outcomes. -/
theorem toggle_hidden_no_ownership_witness :
    (∃ h st', toggleHidden recA 0 5 msg5 "sig" "ab12" st0 = (.ok h, st')) ∧
    toggleHidden recA 0 5 msg5 "sig" "ab12" st0 =
      toggleHidden recB 0 5 msg5 "sig" "ab12" st0 :=
  toggle_hidden_no_ownership recA recB 0 5 msg5 "sig" "ab12"
    { nonce := "ab12", electionId := 5, expiresAt := 100 } "0xAAA" "0xBBB" st0
    (by decide) (by decide) (by decide) (by decide) (by decide) (by decide)
    (by decide) (by decide) (by decide)

/-- Claim C10: a successful toggle-hidden request replaces the election's
whole stored metadata record with exactly the two-field record
(election id and the new hidden flag): `saveElectionMetadata` is a plain
map overwrite, so every other previously stored field is discarded. -/
theorem toggle_hidden_overwrites_metadata
    (recover : String → String → Option String) (now eid : Nat)
    (msg sig nonce : String) (st st' : ServerState) (h : Bool)
    (hok : toggleHidden recover now eid msg sig nonce st = (.ok h, st')) :
    st'.metadata eid = some { electionId := eid, hidden := some h } := by
  unfold toggleHidden at hok
  split at hok
  · simp at hok
  · split at hok
    · simp at hok
    · split at hok
      · simp at hok
      · split at hok
        · simp at hok
        · split at hok
          · simp at hok
          · split at hok
            · simp at hok
            · split at hok
              · simp at hok
              · simp only [Prod.mk.injEq, ToggleResult.ok.injEq] at hok
                obtain ⟨h1, h2⟩ := hok
                subst h1
                subst h2
                simp [setF]

/-- Server state whose stored metadata for election 5 carries a description,
times, an image url, and an explicit hidden flag, next to the nonce of `st0`. -/
def stMeta : ServerState :=
  { nonceStore := st0.nonceStore
    metadata := fun i =>
      if i = 5 then
        some { electionId := 5, description := some "d", votingStartTime := some "s"
               votingEndTime := some "e", resultRevealTime := some "r"
               imageUrl := some "u", hidden := some false }
      else none }

/-- Witness for C10 at a concrete state: after a successful toggle on an
election whose metadata had a description, times and an image url, the
stored record is exactly the two-field record and everything else is gone. -/
theorem toggle_hidden_overwrites_metadata_witness :
    ((toggleHidden recA 0 5 msg5 "sig" "ab12" stMeta).2).metadata 5 =
      some { electionId := 5, hidden := some true } :=
  toggle_hidden_overwrites_metadata recA 0 5 msg5 "sig" "ab12" stMeta
    (toggleHidden recA 0 5 msg5 "sig" "ab12" stMeta).2 true rfl

/-- Honest run on a fresh `VaultVoteEnhanced`: create a two-choice election. -/
def r1 : ContractE := stepE testOracle c0 (.createE 0 "t" ["a","b"] [1,2] [3,4])

/-- ... open it ... -/
def r2 : ContractE := stepE testOracle r1 (.openE 0 0)

/-- ... close it ... -/
def r3 : ContractE := stepE testOracle r2 (.closeE 0 0)

/-- ... and request the reveal of choice 0 (snapshotting its handle). -/
def r4 : ContractE := stepE testOracle r3 (.requestE 0 0 0)

/-- Counterexample to C2: on `VaultVoteEnhanced`, a second
`requestChoiceReveal` for the same still-unresolved choice does NOT fail —
the only guard is `!choiceRevealed` — and it re-snapshots `expectedHandles`,
changing the stored handle (1001 becomes 2001 under the test oracle). -/
theorem rerequest_choice_reveal_cex :
    (requestChoiceReveal testOracle 0 0 0 r4).isOk = true ∧
    (r4.elections 0).expectedHandles 0 = 1001 ∧
    ((stepE testOracle r4 (.requestE 0 0 0)).elections 0).expectedHandles 0 = 2001 := by
  decide

/-- Claim C2, amended: the double-request guard exists in the single-tally
contract `VaultVote`: after a successful `requestTallyReveal`, a second call
for the same election fails with the `reveal already requested` error (and,
being a revert, changes nothing, so `expectedTallyHandle` is unchanged). -/
theorem tally_reveal_request_once
    (o o2 : FHEOracle) (sender id : Nat) (c c' : ContractV)
    (hok : requestTallyReveal o sender id c = .ok c') :
    requestTallyReveal o2 sender id c' = .error "reveal already requested" := by
  unfold requestTallyReveal at hok
  dsimp only at hok
  split_ifs at hok with h1 h2 h3
  simp only [Except.ok.injEq] at hok
  subst hok
  unfold requestTallyReveal
  dsimp only
  simp [setF, h1, h2]

/-- A deployed `VaultVote` whose election 0 is closed with no reveal requested. -/
def cv : ContractV :=
  { owner := 0
    elections := fun _ =>
      { title := "t", choices := 2, state := .Closed, encryptedTally := 7
        revealedResult := "", revealRequested := false, expectedTallyHandle := 0
        hasVoted := fun _ => false }
    electionCount := 1 }

/-- State of `cv` after the first successful `requestTallyReveal`. -/
def cvAfter : ContractV := commitV (requestTallyReveal testOracle 0 0 cv) cv

/-- Witness for the amended C2: on the concrete closed election of `cv`, the
second request after the successful first one fails as stated. -/
theorem tally_reveal_request_once_witness :
    requestTallyReveal testOracle 0 0 cvAfter = .error "reveal already requested" :=
  tally_reveal_request_once testOracle testOracle 0 0 cv cvAfter rfl

/-- Claim C3, amended: the `reveal not requested` rejection exists in
`VaultVote.resolveTallyCallback`: for a registered election whose
`revealRequested` flag is false, the call fails with exactly that error for
any cleartexts and proof, and (being a revert) mutates nothing. -/
theorem tally_resolve_requires_request
    (o : FHEOracle) (id ct pf : Nat) (c : ContractV)
    (hid : id < c.electionCount)
    (hreq : (c.elections id).revealRequested = false) :
    resolveTallyCallback o id ct pf c = .error "reveal not requested" := by
  unfold resolveTallyCallback
  simp [hid, hreq]

/-- Witness for the amended C3 on the concrete contract `cv`. -/
theorem tally_resolve_requires_request_witness :
    resolveTallyCallback testOracle 0 3 4 cv = .error "reveal not requested" :=
  tally_resolve_requires_request testOracle 0 3 4 cv (by decide) (by decide)

/-- Counterexample to C3 on `VaultVoteEnhanced`: `resolveChoiceCallback` has
no reveal-requested guard at all.  On the closed election of `r3`, where no
reveal was ever requested (the stored expected handle is still the default
0), a resolve under an accepting oracle SUCCEEDS and mutates the election
state, instead of failing with a reveal-not-requested error. -/
theorem resolve_without_request_cex :
    (r3.elections 0).expectedHandles 0 = 0 ∧
    (resolveChoiceCallback testOracle 0 0 7 0 r3).isOk = true ∧
    ((stepE testOracle r3 (.resolveE 0 0 7 0)).elections 0).choiceRevealed 0 = true := by
  decide

/-- ... resolve choice 0 of the closed two-choice election ... -/
def r5 : ContractE := stepE testOracle r4 (.resolveE 0 0 7 0)

/-- ... request the reveal of choice 1 ... -/
def r6 : ContractE := stepE testOracle r5 (.requestE 0 0 1)

/-- ... and resolve choice 1, after which the election is fully revealed. -/
def r7 : ContractE := stepE testOracle r6 (.resolveE 0 1 9 0)

/-- Counterexample to C4's error name: once the final choice has been
resolved the election state is `Revealed`, so a repeated resolve of choice 0
fails at the `must be closed` check, not with the `already revealed`
(AlreadyRevealed) error the claim names for every subsequent call. -/
theorem second_resolve_error_name_cex :
    (r7.elections 0).choiceRevealed 0 = true ∧
    (r7.elections 0).state = .Revealed ∧
    resolveChoiceCallback testOracle 0 0 7 0 r7 = .error "must be closed" :=
  ⟨by decide, by decide, rfl⟩

/-- Claim C4, amended: `resolveChoiceCallback` succeeds at most once per
(election, choice).  After one success, every repeat call with any inputs
reverts — with `already revealed` while the election is still `Closed`, and
with `must be closed` once the election has flipped to `Revealed` — and a
revert leaves all state unchanged. -/
theorem resolve_at_most_once
    (o o2 : FHEOracle) (id idx ct pf ct2 pf2 : Nat) (c c' : ContractE)
    (hok : resolveChoiceCallback o id idx ct pf c = .ok c') :
    resolveChoiceCallback o2 id idx ct2 pf2 c' = .error "already revealed" ∨
    resolveChoiceCallback o2 id idx ct2 pf2 c' = .error "must be closed" := by
  unfold resolveChoiceCallback at hok
  dsimp only at hok
  split_ifs at hok with h1 h2 h3 h4 h5 h6
  · simp only [Except.ok.injEq] at hok
    subst hok
    right
    unfold resolveChoiceCallback
    dsimp only
    simp [setF, h1]
  · simp only [Except.ok.injEq] at hok
    subst hok
    left
    unfold resolveChoiceCallback
    dsimp only
    simp [setF, h1, h2, h3]

/-- Witness for the amended C4: on the concrete run, repeating the resolve of
choice 0 right after its success fails with one of the two revert errors. -/
theorem resolve_at_most_once_witness :
    resolveChoiceCallback testOracle 0 0 7 0 r5 = .error "already revealed" ∨
    resolveChoiceCallback testOracle 0 0 7 0 r5 = .error "must be closed" :=
  resolve_at_most_once testOracle testOracle 0 0 7 0 7 0 r4 r5 rfl


/-- Monotonicity of the per-election, per-voter `hasVoted` flag: no
`VaultVoteEnhanced` operation ever resets it to false (even `createElection`,
which reuses the storage slot without clearing `hasVoted`). -/
theorem hasVoted_mono (o : FHEOracle) (c : ContractE) (op : Op) (id a : Nat)
    (h : (c.elections id).hasVoted a = true) :
    ((stepE o c op).elections id).hasVoted a = true := by
  cases op with
  | createE s t l zi zp =>
    simp only [stepE]
    cases hres : createElection o s t l zi zp c with
    | error e => exact h
    | ok c2 =>
      unfold createElection at hres
      dsimp only at hres
      split_ifs at hres with h1 h2 h3 h4
      simp only [Except.ok.injEq] at hres
      subst hres
      dsimp only
      by_cases hid : id = c.electionCount
      · subst hid
        simp [setF]
        exact h
      · rw [setF_ne _ _ _ _ hid]
        exact h
  | openE s i =>
    simp only [stepE]
    cases hres : openElection s i c with
    | error e => exact h
    | ok c2 =>
      unfold openElection at hres
      dsimp only at hres
      split_ifs at hres with h1 h2
      simp only [Except.ok.injEq] at hres
      subst hres
      dsimp only
      by_cases hid : id = i
      · subst hid
        simp [setF]
        exact h
      · rw [setF_ne _ _ _ _ hid]
        exact h
  | closeE s i =>
    simp only [stepE]
    cases hres : closeElection s i c with
    | error e => exact h
    | ok c2 =>
      unfold closeElection at hres
      dsimp only at hres
      split_ifs at hres with h1 h2
      simp only [Except.ok.injEq] at hres
      subst hres
      dsimp only
      by_cases hid : id = i
      · subst hid
        simp [setF]
        exact h
      · rw [setF_ne _ _ _ _ hid]
        exact h
  | voteE s i idx vi vp =>
    simp only [stepE]
    cases hres : castVote o s i idx vi vp c with
    | error e => exact h
    | ok c2 =>
      unfold castVote at hres
      dsimp only at hres
      split_ifs at hres with h1 h2 h3
      simp only [Except.ok.injEq] at hres
      subst hres
      dsimp only
      by_cases hid : id = i
      · subst hid
        simp only [setF_same]
        by_cases has : a = s
        · subst has
          simp [setF]
        · dsimp only
          rw [setF_ne _ _ _ _ has]
          exact h
      · rw [setF_ne _ _ _ _ hid]
        exact h
  | requestE s i idx =>
    simp only [stepE]
    cases hres : requestChoiceReveal o s i idx c with
    | error e => exact h
    | ok c2 =>
      unfold requestChoiceReveal at hres
      dsimp only at hres
      split_ifs at hres with h1 h2 h3 h4
      simp only [Except.ok.injEq] at hres
      subst hres
      dsimp only
      by_cases hid : id = i
      · subst hid
        simp [setF]
        exact h
      · rw [setF_ne _ _ _ _ hid]
        exact h
  | resolveE i idx ct pf =>
    simp only [stepE]
    cases hres : resolveChoiceCallback o i idx ct pf c with
    | error e => exact h
    | ok c2 =>
      unfold resolveChoiceCallback at hres
      dsimp only at hres
      split_ifs at hres with h1 h2 h3 h4 h5 h6
      all_goals simp only [Except.ok.injEq] at hres
      all_goals subst hres
      all_goals dsimp only
      all_goals by_cases hid : id = i
      · subst hid
        simp [setF]
        exact h
      · rw [setF_ne _ _ _ _ hid]
        exact h
      · subst hid
        simp [setF]
        exact h
      · rw [setF_ne _ _ _ _ hid]
        exact h

/-- Claim C5: `castVote` is accepted exactly when the election is open, the
choice index is in range, and the voter has not voted; a successful vote sets
the voter's `hasVoted` flag, and no later operation ever resets it. -/
theorem cast_vote_iff
    (o : FHEOracle) (sender id idx vi vp : Nat) (c : ContractE) :
    ((castVote o sender id idx vi vp c).isOk = true ↔
      ((c.elections id).state = .Open ∧ idx < (c.elections id).choiceCount ∧
        (c.elections id).hasVoted sender = false)) ∧
    (∀ c', castVote o sender id idx vi vp c = .ok c' →
      (c'.elections id).hasVoted sender = true) ∧
    (∀ (c2 : ContractE) (o2 : FHEOracle) (op : Op),
      (c2.elections id).hasVoted sender = true →
      ((stepE o2 c2 op).elections id).hasVoted sender = true) := by
  refine ⟨?_, ?_, ?_⟩
  · unfold castVote
    dsimp only
    split_ifs with h1 h2 h3 <;>
      simp_all [Except.isOk, Except.toBool, not_not, Bool.not_eq_true, Nat.not_lt]
  · intro c' hok
    unfold castVote at hok
    dsimp only at hok
    split_ifs at hok with h1 h2 h3
    simp only [Except.ok.injEq] at hok
    subst hok
    simp [setF]
  · intro c2 o2 op hv
    exact hasVoted_mono o2 c2 op id sender hv

/-- Witness for C5: on the open two-choice election of the concrete run,
voter 1's vote for choice 0 is accepted (via the characterization). -/
theorem cast_vote_iff_witness :
    (castVote testOracle 1 0 0 9 9 r2).isOk = true :=
  (cast_vote_iff testOracle 1 0 0 9 9 r2).1.mpr (by decide)

/-- Opening election 0 on a FRESH contract (election 0 was never created:
electionCount is 0, but openElection does not check existence). -/
def s1 : ContractE := stepE testOracle c0 (.openE 0 0)
/-- Creating the first election afterwards assigns id 0 and overwrites the
already-opened slot. -/
def s2 : ContractE := stepE testOracle s1 (.createE 0 "t" ["a","b"] [1,2] [3,4])

/-- Position of a state along the Created, Open, Closed, Revealed chain. -/
def stateRank : ElectionState → Nat
  | .Created => 0
  | .Open => 1
  | .Closed => 2
  | .Revealed => 3

/-- Counterexample to C6: `openElection` lacks an existence check, so the
owner can open a not-yet-created election id (the default storage slot is in
state `Created`); a later `createElection` reaching that id resets its state
from `Open` back to `Created` — a backward transition. -/
theorem state_backward_cex :
    (s1.elections 0).state = .Open ∧
    (s2.elections 0).state = .Created ∧
    stateRank (s2.elections 0).state < stateRank (s1.elections 0).state := by
  decide

/-- Claim C6, amended: for elections that exist (id below `electionCount`),
every operation either leaves the state unchanged or advances it by exactly
one step along Created, Open, Closed, Revealed; the backward reset is only
reachable through operations on not-yet-created ids. -/
theorem state_forward_on_created
    (o : FHEOracle) (c : ContractE) (op : Op) (id : Nat)
    (hid : id < c.electionCount) :
    ((stepE o c op).elections id).state = (c.elections id).state ∨
    ((c.elections id).state = .Created ∧ ((stepE o c op).elections id).state = .Open) ∨
    ((c.elections id).state = .Open ∧ ((stepE o c op).elections id).state = .Closed) ∨
    ((c.elections id).state = .Closed ∧ ((stepE o c op).elections id).state = .Revealed) := by
  cases op with
  | createE s t l zi zp =>
    left
    simp only [stepE]
    cases hres : createElection o s t l zi zp c with
    | error e => rfl
    | ok c2 =>
      unfold createElection at hres
      dsimp only at hres
      split_ifs at hres with h1 h2 h3 h4
      simp only [Except.ok.injEq] at hres
      subst hres
      dsimp only
      rw [setF_ne _ _ _ _ (Nat.ne_of_lt hid)]
  | openE s i =>
    simp only [stepE]
    cases hres : openElection s i c with
    | error e => left; rfl
    | ok c2 =>
      unfold openElection at hres
      dsimp only at hres
      split_ifs at hres with h1 h2
      simp only [Except.ok.injEq] at hres
      subst hres
      dsimp only
      by_cases hidi : id = i
      · subst hidi
        right; left
        exact ⟨not_not.mp h2, by simp [setF]⟩
      · left
        rw [setF_ne _ _ _ _ hidi]
  | closeE s i =>
    simp only [stepE]
    cases hres : closeElection s i c with
    | error e => left; rfl
    | ok c2 =>
      unfold closeElection at hres
      dsimp only at hres
      split_ifs at hres with h1 h2
      simp only [Except.ok.injEq] at hres
      subst hres
      dsimp only
      by_cases hidi : id = i
      · subst hidi
        right; right; left
        exact ⟨not_not.mp h2, by simp [setF]⟩
      · left
        rw [setF_ne _ _ _ _ hidi]
  | voteE s i idx vi vp =>
    left
    simp only [stepE]
    cases hres : castVote o s i idx vi vp c with
    | error e => rfl
    | ok c2 =>
      unfold castVote at hres
      dsimp only at hres
      split_ifs at hres with h1 h2 h3
      simp only [Except.ok.injEq] at hres
      subst hres
      dsimp only
      by_cases hidi : id = i
      · subst hidi
        simp [setF, not_not.mp h1]
      · rw [setF_ne _ _ _ _ hidi]
  | requestE s i idx =>
    left
    simp only [stepE]
    cases hres : requestChoiceReveal o s i idx c with
    | error e => rfl
    | ok c2 =>
      unfold requestChoiceReveal at hres
      dsimp only at hres
      split_ifs at hres with h1 h2 h3 h4
      simp only [Except.ok.injEq] at hres
      subst hres
      dsimp only
      by_cases hidi : id = i
      · subst hidi
        simp [setF]
      · rw [setF_ne _ _ _ _ hidi]
  | resolveE i idx ct pf =>
    simp only [stepE]
    cases hres : resolveChoiceCallback o i idx ct pf c with
    | error e => left; rfl
    | ok c2 =>
      unfold resolveChoiceCallback at hres
      dsimp only at hres
      split_ifs at hres with h1 h2 h3 h4 h5 h6
      · simp only [Except.ok.injEq] at hres
        subst hres
        dsimp only
        by_cases hidi : id = i
        · subst hidi
          right; right; right
          exact ⟨not_not.mp h2, by simp [setF]⟩
        · left
          rw [setF_ne _ _ _ _ hidi]
      · simp only [Except.ok.injEq] at hres
        subst hres
        dsimp only
        left
        by_cases hidi : id = i
        · subst hidi
          simp [setF, not_not.mp h2]
        · rw [setF_ne _ _ _ _ hidi]

/-- Witness for the amended C6: closing the concrete open election advances
it from Open to Closed. -/
theorem state_forward_on_created_witness :
    ((stepE testOracle r2 (.closeE 0 0)).elections 0).state = (r2.elections 0).state ∨
    ((r2.elections 0).state = .Created ∧ ((stepE testOracle r2 (.closeE 0 0)).elections 0).state = .Open) ∨
    ((r2.elections 0).state = .Open ∧ ((stepE testOracle r2 (.closeE 0 0)).elections 0).state = .Closed) ∨
    ((r2.elections 0).state = .Closed ∧ ((stepE testOracle r2 (.closeE 0 0)).elections 0).state = .Revealed) :=
  state_forward_on_created testOracle r2 (.closeE 0 0) 0 (by decide)

/-- Loop invariant of the winner scan: starting from an accumulator that is
the argmax of the indices below k (lowest index on ties), processing the
indices k .. k+m-1 yields the argmax of the indices below k+m, still
preferring the lowest index on ties (only a strictly greater count replaces
the accumulator). -/
theorem winnerAux_spec (f : Nat → Nat) (m : Nat) :
    ∀ (k wi wv : Nat), wi < k → wv = f wi →
      (∀ j, j < k → f j ≤ wv) → (∀ j, j < wi → f j < wv) →
      (winnerAux f (List.range' k m) (wi, wv)).1 < k + m ∧
      (winnerAux f (List.range' k m) (wi, wv)).2 = f (winnerAux f (List.range' k m) (wi, wv)).1 ∧
      (∀ j, j < k + m → f j ≤ (winnerAux f (List.range' k m) (wi, wv)).2) ∧
      (∀ j, j < (winnerAux f (List.range' k m) (wi, wv)).1 →
        f j < (winnerAux f (List.range' k m) (wi, wv)).2) := by
  induction m with
  | zero =>
    intro k wi wv h1 h2 h3 h4
    simpa [winnerAux] using ⟨h1, h2, h3, h4⟩
  | succ n ih =>
    intro k wi wv h1 h2 h3 h4
    rw [List.range'_succ]
    by_cases hgt : f k > wv
    · have step : winnerAux f (k :: List.range' (k+1) n) (wi, wv) =
          winnerAux f (List.range' (k+1) n) (k, f k) := by
        simp [winnerAux, hgt]
      rw [step]
      have hmax : ∀ j, j < k + 1 → f j ≤ f k := by
        intro j hj
        rcases Nat.lt_succ_iff_lt_or_eq.mp hj with hj' | hj'
        · exact le_of_lt (lt_of_le_of_lt (h3 j hj') hgt)
        · subst hj'; exact le_refl _
      have hlow : ∀ j, j < k → f j < f k := fun j hj =>
        lt_of_le_of_lt (h3 j hj) hgt
      obtain ⟨a, b, cmax, dlow⟩ := ih (k+1) k (f k) (Nat.lt_succ_self k) rfl hmax hlow
      refine ⟨by omega, b, ?_, dlow⟩
      intro j hj
      exact cmax j (by omega)
    · have step : winnerAux f (k :: List.range' (k+1) n) (wi, wv) =
          winnerAux f (List.range' (k+1) n) (wi, wv) := by
        simp [winnerAux, hgt]
      rw [step]
      have hmax : ∀ j, j < k + 1 → f j ≤ wv := by
        intro j hj
        rcases Nat.lt_succ_iff_lt_or_eq.mp hj with hj' | hj'
        · exact h3 j hj'
        · subst hj'; omega
      obtain ⟨a, b, cmax, dlow⟩ := ih (k+1) wi wv (by omega) h2 hmax h4
      refine ⟨by omega, b, ?_, dlow⟩
      intro j hj
      exact cmax j (by omega)

/-- Claim C7: on a fully revealed election (with at least one choice),
`getWinner` returns the pair of the maximal revealed count and the LOWEST
index attaining it: every choice's count is at most the returned count, and
every earlier index has a strictly smaller count. -/
theorem get_winner_spec (c : ContractE) (id : Nat)
    (hfull : (c.elections id).fullyRevealed = true)
    (hpos : 0 < (c.elections id).choiceCount) :
    ∃ wi wv, getWinner id c = .ok (wi, wv) ∧
      wi < (c.elections id).choiceCount ∧
      wv = (c.elections id).revealedVotesPerChoice wi ∧
      (∀ j, j < (c.elections id).choiceCount →
        (c.elections id).revealedVotesPerChoice j ≤ wv) ∧
      (∀ j, j < wi → (c.elections id).revealedVotesPerChoice j < wv) := by
  unfold getWinner
  dsimp only
  rw [if_neg (by simp [hfull])]
  set f := (c.elections id).revealedVotesPerChoice with hf
  set n := (c.elections id).choiceCount with hn
  obtain ⟨a, b, cmax, dlow⟩ :=
    winnerAux_spec f (n - 1) 1 0 (f 0) Nat.zero_lt_one rfl
      (by intro j hj; interval_cases j; exact le_refl _)
      (by intro j hj; omega)
  have hn1 : 1 + (n - 1) = n := by omega
  rw [hn1] at a cmax
  exact ⟨_, _, rfl, a, b, cmax, dlow⟩

/-- Witness for C7 on the fully revealed concrete election of the honest run. -/
theorem get_winner_spec_witness :
    ∃ wi wv, getWinner 0 r7 = .ok (wi, wv) ∧
      wi < (r7.elections 0).choiceCount ∧
      wv = (r7.elections 0).revealedVotesPerChoice wi ∧
      (∀ j, j < (r7.elections 0).choiceCount →
        (r7.elections 0).revealedVotesPerChoice j ≤ wv) ∧
      (∀ j, j < wi → (r7.elections 0).revealedVotesPerChoice j < wv) :=
  get_winner_spec r7 0 (by decide) (by decide)

/-- Counterexample to C8: the contract itself enforces neither the upper
bound of 10 choices nor non-empty labels — `createElection` succeeds with 11
labels and with an empty label, even though the client-side zod schema
rejects both inputs. -/
theorem create_election_bounds_cex :
    (createElection testOracle 0 "ttt" (List.replicate 11 "x")
      (List.replicate 11 0) (List.replicate 11 0) c0).isOk = true ∧
    (createElection testOracle 0 "ttt" ["", "a"] [1,2] [3,4] c0).isOk = true ∧
    createElectionSchemaValid "ttt" (List.replicate 11 "x") = false ∧
    createElectionSchemaValid "ttt" ["", "a"] = false := by
  decide

/-- Claim C8, amended: on-chain, `createElection` succeeds exactly when the
caller is the owner, there are at least 2 labels, and both the zero-input
and zero-proof arrays match the label count; the 2-to-10 bound and the
non-empty-label requirement live only in the client-side
`createElectionSchema` validation. -/
theorem create_election_characterization
    (o : FHEOracle) (s : Nat) (t : String) (labels : List String)
    (zi zp : List Nat) (c : ContractE) :
    ((createElection o s t labels zi zp c).isOk = true ↔
      (s = c.owner ∧ 1 < labels.length ∧ zi.length = labels.length ∧
        zp.length = labels.length)) ∧
    (∀ title ls, createElectionSchemaValid title ls = true →
      2 ≤ ls.length ∧ ls.length ≤ 10 ∧ ∀ l ∈ ls, l ≠ "") := by
  constructor
  · unfold createElection
    dsimp only
    split_ifs with h1 h2 h3 h4 <;>
      simp_all [Except.isOk, Except.toBool, not_not]
  · intro title ls hv
    unfold createElectionSchemaValid at hv
    simp only [Bool.and_eq_true, decide_eq_true_eq, List.all_eq_true] at hv
    obtain ⟨⟨⟨ht, h2⟩, h10⟩, hall⟩ := hv
    refine ⟨h2, h10, ?_⟩
    intro l hl heq
    have hlen := hall l hl
    subst heq
    have h0 : ("" : String).length = 0 := rfl
    omega

/-- Witness for the amended C8: a well-formed owner creation is accepted. -/
theorem create_election_characterization_witness :
    (createElection testOracle 0 "t" ["a","b"] [1,2] [3,4] c0).isOk = true :=
  (create_election_characterization testOracle 0 "t" ["a","b"] [1,2] [3,4] c0).1.mpr
    (by decide)
